import Mathlib

/-!
Verification of the analytics-overview core of the store back-office service
(`src/main.py`, endpoint `analytics_overview`, plus the record schemas of
`src/schemas.py`).

The embedding models a UTC instant as a civil day number together with the
seconds elapsed since that day's midnight; Python `datetime` comparison is
the corresponding lexicographic order, and `timedelta(days = k)` arithmetic
is subtraction on the day number.  Monetary `float` values are modelled as
exact rationals, and Python's `round(x, 2)` as round-half-to-even at two
decimal places over those rationals.  MongoDB aggregation pipelines are
modelled by their documented semantics: `$match` is `List.filter`,
`$unwind` is `List.flatMap`, `$group` produces one row per distinct key
whose accumulators sum over the matching documents, `$sort`/`$limit` are
`List.mergeSort`/`List.take`, and `$dateToString "%Y-%m-%d"` is the civil
day number of the timestamp (the ISO day string is in bijection with it).
-/

namespace StoreSaas

/-- UTC instant: `days` is the proleptic-Gregorian civil day number
(0 = 1970-01-01) and `secs` the seconds elapsed since that day's midnight. -/
structure DateTime where
  days : Int
  secs : Int
deriving DecidableEq, Repr

/-- Python `datetime` order on UTC instants: lexicographic on (day, seconds). -/
def dtLe (a b : DateTime) : Prop :=
  a.days < b.days ∨ (a.days = b.days ∧ a.secs ≤ b.secs)

instance (a b : DateTime) : Decidable (dtLe a b) := by
  unfold dtLe; infer_instance

/-- Civil day number to (year, month, day) in the proleptic Gregorian
calendar, the calendar of Python `datetime`.  This is the standard
civil-from-days algorithm; Lean's `Int` division by a positive constant is
floor division, exactly Python's `//`. -/
def civilFromDays (z0 : Int) : Int × Int × Int :=
  let z := z0 + 719468
  let era := z / 146097
  let doe := z % 146097
  let yoe := (doe - doe / 1460 + doe / 36524 - doe / 146096) / 365
  let y := yoe + era * 400
  let doy := doe - (365 * yoe + yoe / 4 - yoe / 100)
  let mp := (5 * doy + 2) / 153
  let d := doy - (153 * mp + 2) / 5 + 1
  let m := mp + (if mp < 10 then 3 else -9)
  (if m ≤ 2 then y + 1 else y, m, d)

/-- Inverse of `civilFromDays`: (year, month, day) to civil day number. -/
def daysFromCivil (y0 m d : Int) : Int :=
  let y := if m ≤ 2 then y0 - 1 else y0
  let era := y / 400
  let yoe := y % 400
  let doy := (153 * (m + (if 2 < m then -3 else 9)) + 2) / 5 + d - 1
  let doe := yoe * 365 + yoe / 4 - yoe / 100 + doy
  era * 146097 + doe - 719468

/-- Day number of the first day of the month containing day `z`; this is the
day-number image of Python's `datetime(now.year, now.month, 1)`. -/
def firstOfMonthDays (z : Int) : Int :=
  daysFromCivil (civilFromDays z).1 (civilFromDays z).2.1 1

/-- Line 143: `start_today = datetime(now.year, now.month, now.day, tzinfo=utc)`,
midnight of the current civil day. -/
def startToday (now : DateTime) : DateTime := ⟨now.days, 0⟩

/-- Line 144: `start_month = datetime(now.year, now.month, 1, tzinfo=utc)`,
midnight of the first day of the current month. -/
def startMonth (now : DateTime) : DateTime := ⟨firstOfMonthDays now.days, 0⟩

/-- Python `now - timedelta(days = k)` (UTC: the time of day is unchanged). -/
def subDays (now : DateTime) (k : Int) : DateTime := ⟨now.days - k, now.secs⟩

/-! ### Data model (`src/schemas.py`) -/

/-- Schema `OrderItem` (`src/schemas.py` lines 59-63). -/
structure OrderItem where
  product_id : String
  title : String
  price : ℚ
  quantity : Int
deriving DecidableEq, Repr

/-- Schema `Order` (`src/schemas.py` lines 65-75). -/
structure Order where
  customer_id : Option String := none
  customer_name : Option String := none
  items : List OrderItem
  total_amount : ℚ
  status : String := "paid"
  placed_at : Option DateTime := none
deriving DecidableEq, Repr

/-- Schema `Customer` (`src/schemas.py` lines 34-45). -/
structure Customer where
  name : String
  email : String
  phone : Option String := none
  address : Option String := none
  city : Option String := none
  country : Option String := none
  segment : Option String := none
deriving DecidableEq, Repr

/-- The two collections read by `analytics_overview` (`db.order`, `db.customer`). -/
structure Store where
  order : List Order
  customer : List Customer
deriving DecidableEq, Repr

/-! ### Rounding -/

/-- Round a rational to the nearest integer, ties to the even integer: the
exact-arithmetic idealisation of Python's `round`. -/
def roundHalfEven (q : ℚ) : Int :=
  if q - ⌊q⌋ < 1/2 then ⌊q⌋
  else if 1/2 < q - ⌊q⌋ then ⌊q⌋ + 1
  else if ⌊q⌋ % 2 = 0 then ⌊q⌋ else ⌊q⌋ + 1

/-- Python `round(x, 2)`. -/
def roundTo2 (q : ℚ) : ℚ := (roundHalfEven (q * 100) : ℚ) / 100

/-- A rational representable with two decimal places (a whole number of cents). -/
def TwoDecimal (q : ℚ) : Prop := ∃ n : Int, q = (n : ℚ) / 100

/-! ### The five derivations of `analytics_overview` (`src/main.py` 137-225) -/

/-- The `$match` predicate `{"placed_at": {"$gte": start}}`: a document
matches when `placed_at` is present and not before `start` (a missing or
null `placed_at` never satisfies `$gte` a date). -/
def matchesWindow (start : DateTime) (o : Order) : Bool :=
  match o.placed_at with
  | some t => decide (dtLe start t)
  | none => false

/-- Lines 147-159: `$match placed_at ≥ start` then
`$group {_id: None, revenue: {$sum: $total_amount}, orders: {$count: {}}}`,
and `next(iter(...), None) or {"revenue": 0, "orders": 0}` — `$group` emits
no row at all on an empty match, in which case the `or` default applies. -/
def salesWindow (orders : List Order) (start : DateTime) : ℚ × Nat :=
  let matched := orders.filter (matchesWindow start)
  match matched with
  | [] => (0, 0)
  | _ => ((matched.map Order.total_amount).sum, matched.length)

/-- Lines 161-164: `avg_order_value = round(mtd["revenue"] / mtd["orders"], 2)`
when `mtd["orders"]` is truthy (non-zero), else the initial `0`. -/
def avgOrderValue (mtd : ℚ × Nat) : ℚ :=
  if mtd.2 ≠ 0 then roundTo2 (mtd.1 / (mtd.2 : ℚ)) else 0

/-- The `$group` key of the top-products pipeline:
`{"product_id": "$items.product_id", "title": "$items.title"}`. -/
def itemKey (it : OrderItem) : String × String := (it.product_id, it.title)

/-- Lines 169-170: `$match placed_at ≥ last_30`, then `$unwind $items`. -/
def unwindItems (orders : List Order) (last30 : DateTime) : List OrderItem :=
  (orders.filter (matchesWindow last30)).flatMap Order.items

/-- One row of the `$group` stage of the top-products pipeline. -/
structure ProductGroup where
  key : String × String
  quantity : Int
  revenue : ℚ
deriving DecidableEq, Repr

/-- The `$group` row for key `k`: `quantity = {$sum: $items.quantity}` and
`revenue = {$sum: {$multiply: [$items.price, $items.quantity]}}` over the
unwound items with that key. -/
def mkProductGroup (its : List OrderItem) (k : String × String) : ProductGroup :=
  { key := k
    quantity := ((its.filter fun it => decide (itemKey it = k)).map OrderItem.quantity).sum
    revenue := ((its.filter fun it => decide (itemKey it = k)).map
      fun it => it.price * (it.quantity : ℚ)).sum }

/-- Lines 171-175: `$group` by `(product_id, title)`.  Mongo emits one row
per distinct key, with the accumulators summed over the matching documents;
the row order is unspecified, fixed here by deduplicating the key list. -/
def groupProducts (its : List OrderItem) : List ProductGroup :=
  ((its.map itemKey).dedup).map (mkProductGroup its)

/-- One entry of the returned `top_products` list (lines 179-187). -/
structure TopRow where
  product_id : String
  title : String
  quantity : Int
  revenue : ℚ
deriving DecidableEq, Repr

/-- Lines 166-187: the top-products pipeline — `$match placed_at ≥ now − 30d`,
`$unwind`, `$group`, `$sort {revenue: -1}`, `$limit 5`, then the Python
comprehension building each row with `round(revenue, 2)`. -/
def topProducts (orders : List Order) (now : DateTime) : List TopRow :=
  let gs := groupProducts (unwindItems orders (subDays now 30))
  ((gs.mergeSort fun a b => decide (b.revenue ≤ a.revenue)).take 5).map fun g =>
    { product_id := g.key.1, title := g.key.2
      quantity := g.quantity, revenue := roundTo2 g.revenue }

/-- The `%Y-%m-%d` UTC day key of an order's `placed_at` (the civil day
number stands in for the ISO day string, with which it is in bijection). -/
def dayOf (o : Order) : Option Int := o.placed_at.map DateTime.days

/-- One row of the `$group`-by-day stage of the time-series pipeline. -/
structure DayGroup where
  day : Int
  revenue : ℚ
  orders : Nat
deriving DecidableEq, Repr

/-- The `$group` row for day `d`: `revenue = {$sum: $total_amount}` and
`orders = {$count: {}}` over the matched orders placed on day `d`. -/
def mkDayGroup (matched : List Order) (d : Int) : DayGroup :=
  { day := d
    revenue := ((matched.filter fun o => decide (dayOf o = some d)).map
      Order.total_amount).sum
    orders := (matched.filter fun o => decide (dayOf o = some d)).length }

/-- Lines 191-200: `$group` by the `%Y-%m-%d` day string over the matched
orders (one row per distinct day, order fixed by key deduplication; the
pipeline's `$sort` only affects an ordering the dictionary lookup below
ignores). -/
def groupByDay (matched : List Order) : List DayGroup :=
  ((matched.filterMap dayOf).dedup).map (mkDayGroup matched)

/-- One entry of the returned `timeseries` list (line 204). -/
structure TsEntry where
  day : Int
  revenue : ℚ
  orders : Nat
deriving DecidableEq, Repr

/-- Lines 189-204: `$match placed_at ≥ now − 13d`, `$group` by day, then
`by_day = {d["_id"]: d for d in series}` and the gap-filling comprehension
over `days = [(start_14 + timedelta(days=i)).date().isoformat() for i in range(14)]`
with `by_day.get(d, {}).get(..., 0)` defaults. -/
def timeseries (orders : List Order) (now : DateTime) : List TsEntry :=
  let start14 := subDays now 13
  let matched := orders.filter (matchesWindow start14)
  let byDay := groupByDay matched
  ((List.range 14).map fun (i : Nat) => start14.days + (i : Int)).map fun d =>
    match byDay.find? fun g => decide (g.day = d) with
    | some g => { day := d, revenue := g.revenue, orders := g.orders }
    | none => { day := d, revenue := 0, orders := 0 }

/-- One row of the `$group`-by-segment stage (lines 207-210): `_id` is the
raw `segment` value (`None` for a missing/null field) and `count` the number
of customer documents carrying exactly that value. -/
structure SegGroup where
  _id : Option String
  count : Nat
deriving DecidableEq, Repr

/-- The `$group` row for raw segment value `s`. -/
def mkSegGroup (cs : List Customer) (s : Option String) : SegGroup :=
  { _id := s, count := (cs.filter fun c => decide (c.segment = s)).length }

/-- Lines 207-210: `$group {_id: "$segment", count: {$count: {}}}` over all
customer documents (row order fixed by key deduplication), before sorting. -/
def groupSegments (cs : List Customer) : List SegGroup :=
  ((cs.map Customer.segment).dedup).map (mkSegGroup cs)

/-- One entry of the returned `segments` list (lines 211-214). -/
structure SegRow where
  segment : String
  count : Nat
deriving DecidableEq, Repr

/-- Line 212: `s["_id"] or "Uncategorized"` — Python's `or` replaces the
falsy values `None` and `""` by the fallback label, after grouping. -/
def segLabel (s : Option String) : String :=
  match s with
  | none => "Uncategorized"
  | some str => if str = "" then "Uncategorized" else str

/-- Lines 206-214: group customers by raw `segment`, `$sort {count: -1}`,
then label each row. -/
def segments (cs : List Customer) : List SegRow :=
  ((groupSegments cs).mergeSort fun a b => decide (b.count ≤ a.count)).map
    fun g => { segment := segLabel g._id, count := g.count }

/-- The response object assembled at lines 216-225. -/
structure Overview where
  today_revenue : ℚ
  today_orders : Nat
  mtd_revenue : ℚ
  mtd_orders : Nat
  avg_order_value : ℚ
  top_products : List TopRow
  timeseries : List TsEntry
  segments : List SegRow
deriving DecidableEq, Repr

/-- Lines 142-225 of `analytics_overview`, after the `db is None` guard. -/
def overviewImpl (s : Store) (now : DateTime) : Overview :=
  let today := salesWindow s.order (startToday now)
  let mtd := salesWindow s.order (startMonth now)
  { today_revenue := roundTo2 today.1
    today_orders := today.2
    mtd_revenue := roundTo2 mtd.1
    mtd_orders := mtd.2
    avg_order_value := avgOrderValue mtd
    top_products := topProducts s.order now
    timeseries := timeseries s.order now
    segments := segments s.customer }

/-- The endpoint `analytics_overview` (lines 137-225): when the module-level
`db` handle is `None` it raises `HTTPException(500, "Database not configured")`
before reading or computing anything; otherwise it computes the report. -/
def analyticsOverview (db : Option Store) (now : DateTime) : Except String Overview :=
  match db with
  | none => Except.error "Database not configured"
  | some s => Except.ok (overviewImpl s now)

/-- The closed window `[start, stop]` exactly as the specification words it
("orders with `placed_at` in window"); the code's `$match` stage, by
contrast, applies only the lower bound.  Used to compare the two. -/
def inClosedWindow (start stop : DateTime) (o : Order) : Bool :=
  match o.placed_at with
  | some t => decide (dtLe start t) && decide (dtLe t stop)
  | none => false

/-- Inclusion predicate of the oldest day of the 14-day series: an order on
that calendar day is matched by the pipeline's `$gte now - 13d` filter
exactly when its time of day is not before `now`'s time of day. -/
def onOldestDayCounted (now : DateTime) (o : Order) : Bool :=
  match o.placed_at with
  | some t => decide (t.days = now.days - 13) && decide (now.secs ≤ t.secs)
  | none => false

/-! ### Concrete example records used in witnesses and counterexamples -/

/-- An order timestamped five seconds after the instant `nowC1`. -/
def oC1 : Order := { items := [], total_amount := 10, placed_at := some ⟨0, 5⟩ }

def nowC1 : DateTime := ⟨0, 0⟩

/-- An order placed 50 seconds into day 5. -/
def oW1 : Order := { items := [], total_amount := 7, placed_at := some ⟨5, 50⟩ }

def nowW1 : DateTime := ⟨5, 100⟩

/-- An order placed at midnight of the oldest day of the 14-day series of `nowC3`. -/
def oC3 : Order := { items := [], total_amount := 10, placed_at := some ⟨0, 0⟩ }

/-- An order placed on the second day of the 14-day series of `nowC3`. -/
def oW3 : Order := { items := [], total_amount := 4, placed_at := some ⟨1, 0⟩ }

def nowC3 : DateTime := ⟨13, 1⟩

def itC4 : OrderItem := { product_id := "p", title := "T", price := 2, quantity := 3 }

/-- An order placed one day after `nowC4`. -/
def oC4 : Order := { items := [itC4], total_amount := 6, placed_at := some ⟨1, 0⟩ }

def nowC4 : DateTime := ⟨0, 0⟩

def itW4a : OrderItem := { product_id := "p1", title := "A", price := 2, quantity := 1 }

def itW4b : OrderItem := { product_id := "p2", title := "B", price := 3, quantity := 1 }

/-- An order with two distinct product groups, placed exactly at `nowC4`. -/
def oW4 : Order := { items := [itW4a, itW4b], total_amount := 5, placed_at := some ⟨0, 0⟩ }

/-- A customer with no `segment` value. -/
def cC5a : Customer := { name := "a", email := "a" }

/-- A customer whose `segment` is the empty string. -/
def cC5b : Customer := { name := "b", email := "b", segment := some "" }

def oW6a : Order := { items := [], total_amount := 10, placed_at := some ⟨0, 0⟩ }

def oW6b : Order := { items := [], total_amount := 31/2, placed_at := some ⟨0, 0⟩ }

def sW6 : Store := { order := [oW6a, oW6b], customer := [] }

/-- An order whose `total_amount` is not a whole number of cents. -/
def oW9 : Order := { items := [], total_amount := 1/1000, placed_at := some ⟨0, 0⟩ }

def sW9 : Store := { order := [oW9], customer := [] }

/-- An order whose stored `total_amount` (100) disagrees with the item-level
sum of `price * quantity` (6). -/
def oI1 : Order := { items := [itC4], total_amount := 100, placed_at := some ⟨0, 0⟩ }

/-- Same `placed_at` and `total_amount` as `oI1`, but no items. -/
def oI2 : Order := { items := [], total_amount := 100, placed_at := some ⟨0, 0⟩ }

/-- Same `placed_at` and items as `oI1`, but the item-consistent total. -/
def oI3 : Order := { items := [itC4], total_amount := 6, placed_at := some ⟨0, 0⟩ }

def sW9t : Store := { order := [oI3], customer := [] }

/-! ### Calendar facts -/

set_option maxHeartbeats 4000000 in
/-- Year-of-era extraction bound: for a day-of-era `n` the year-of-era
computed by `civilFromDays` starts no later than `n` and ends within 365
days of it.  Proved by case analysis on the 400 possible years of an era. -/
theorem yoe_day_bounds (n : Int) (h1 : 0 ≤ n) (h2 : n ≤ 146096) :
    365 * ((n - n/1460 + n/36524 - n/146096)/365)
      + ((n - n/1460 + n/36524 - n/146096)/365)/4
      - ((n - n/1460 + n/36524 - n/146096)/365)/100 ≤ n ∧
    n - (365 * ((n - n/1460 + n/36524 - n/146096)/365)
      + ((n - n/1460 + n/36524 - n/146096)/365)/4
      - ((n - n/1460 + n/36524 - n/146096)/365)/100) ≤ 365 := by
  set b := (n - n/1460 + n/36524 - n/146096)/365 with hb
  have hb0 : 0 ≤ b := by omega
  have hb1 : b ≤ 399 := by omega
  interval_cases b <;> omega

/-- Assembly step for `firstOfMonthDays_le`, over abstract components of the
civil conversion. -/
lemma fom_core (z era n yoe mp m : Int)
    (hz : z + 719468 = era * 146097 + n)
    (hs0 : 365 * yoe + yoe / 4 - yoe / 100 ≤ n)
    (hs1 : n - (365 * yoe + yoe / 4 - yoe / 100) ≤ 365)
    (hY0 : 0 ≤ yoe) (hY1 : yoe ≤ 399)
    (hMP : mp = (5 * (n - (365 * yoe + yoe / 4 - yoe / 100)) + 2) / 153)
    (hM : m = mp + (if mp < 10 then 3 else -9)) :
    daysFromCivil (if m ≤ 2 then yoe + era * 400 + 1 else yoe + era * 400) m 1 ≤ z := by
  have e1 : (yoe + era * 400 + 1 - 1) / 400 = era := by omega
  have e2 : (yoe + era * 400 + 1 - 1) % 400 = yoe := by omega
  have e3 : (yoe + era * 400) / 400 = era := by omega
  have e4 : (yoe + era * 400) % 400 = yoe := by omega
  simp only [daysFromCivil]
  split_ifs at hM ⊢ <;> first
    | omega
    | (rw [e1, e2]; omega)
    | (rw [e3, e4]; omega)

/-- The first day of a month never lies after any day of that month. -/
theorem firstOfMonthDays_le (z : Int) : firstOfMonthDays z ≤ z := by
  have hF3 := yoe_day_bounds ((z + 719468) % 146097) (by omega) (by omega)
  simp only [firstOfMonthDays]
  exact fom_core z ((z + 719468) / 146097) ((z + 719468) % 146097) _ _ _
    (by omega) hF3.1 hF3.2 (by omega) (by omega) rfl rfl

/-! ### Helper lemmas -/

lemma dtLe_trans {a b c : DateTime} (h1 : dtLe a b) (h2 : dtLe b c) : dtLe a c := by
  unfold dtLe at *; omega

lemma roundHalfEven_intCast (n : Int) : roundHalfEven (n : ℚ) = n := by
  unfold roundHalfEven
  rw [Int.floor_intCast]
  norm_num

lemma roundHalfEven_cases (q : ℚ) :
    roundHalfEven q = ⌊q⌋ ∨ roundHalfEven q = ⌊q⌋ + 1 := by
  unfold roundHalfEven
  split_ifs <;> simp

lemma roundHalfEven_mono {a b : ℚ} (h : a ≤ b) :
    roundHalfEven a ≤ roundHalfEven b := by
  have hf : ⌊a⌋ ≤ ⌊b⌋ := Int.floor_le_floor h
  rcases lt_or_le ⌊a⌋ ⌊b⌋ with hlt | hle
  · rcases roundHalfEven_cases a with ha | ha <;>
      rcases roundHalfEven_cases b with hb | hb <;> omega
  · have hfe : ⌊b⌋ = ⌊a⌋ := le_antisymm hle hf
    have hfr : a - (⌊a⌋ : ℚ) ≤ b - (⌊a⌋ : ℚ) := by linarith
    unfold roundHalfEven
    rw [hfe]
    split_ifs <;> first | omega | linarith

lemma roundTo2_mono {a b : ℚ} (h : a ≤ b) : roundTo2 a ≤ roundTo2 b := by
  unfold roundTo2
  have h100 : a * 100 ≤ b * 100 := by linarith
  have hc : ((roundHalfEven (a * 100) : ℚ)) ≤ ((roundHalfEven (b * 100) : ℚ)) := by
    exact_mod_cast roundHalfEven_mono h100
  linarith

lemma TwoDecimal_roundTo2_eq {q : ℚ} (h : TwoDecimal q) : roundTo2 q = q := by
  obtain ⟨n, rfl⟩ := h
  unfold roundTo2
  rw [div_mul_cancel₀ (n : ℚ) (by norm_num : (100 : ℚ) ≠ 0), roundHalfEven_intCast]

lemma roundTo2_twoDecimal (q : ℚ) : TwoDecimal (roundTo2 q) :=
  ⟨roundHalfEven (q * 100), rfl⟩

lemma roundTo2_idem (q : ℚ) : roundTo2 (roundTo2 q) = roundTo2 q :=
  TwoDecimal_roundTo2_eq (roundTo2_twoDecimal q)

lemma roundTo2_zero : roundTo2 0 = 0 :=
  TwoDecimal_roundTo2_eq ⟨0, by norm_num⟩

lemma TwoDecimal_zero : TwoDecimal 0 := ⟨0, by norm_num⟩

lemma TwoDecimal_add {a b : ℚ} (ha : TwoDecimal a) (hb : TwoDecimal b) :
    TwoDecimal (a + b) := by
  obtain ⟨n, rfl⟩ := ha
  obtain ⟨m, rfl⟩ := hb
  exact ⟨n + m, by push_cast; ring⟩

lemma TwoDecimal_listSum (l : List Order) (h : ∀ o ∈ l, TwoDecimal o.total_amount) :
    TwoDecimal ((l.map Order.total_amount).sum) := by
  induction l with
  | nil => simpa using TwoDecimal_zero
  | cons a l ih =>
    simp only [List.map_cons, List.sum_cons]
    exact TwoDecimal_add (h a (by simp)) (ih fun o ho => h o (by simp [ho]))

/-- `salesWindow` always returns the sum and count over the matched orders
(the empty-match default coincides with the empty sum and count). -/
lemma salesWindow_eq (orders : List Order) (start : DateTime) :
    salesWindow orders start =
      (((orders.filter (matchesWindow start)).map Order.total_amount).sum,
       (orders.filter (matchesWindow start)).length) := by
  unfold salesWindow
  cases h : orders.filter (matchesWindow start) <;> simp [h]

lemma matchesWindow_mono {s s' : DateTime} (h : dtLe s' s) (o : Order)
    (hm : matchesWindow s o = true) : matchesWindow s' o = true := by
  unfold matchesWindow at *
  cases hp : o.placed_at with
  | none => rw [hp] at hm; exact absurd hm (by simp)
  | some t =>
    rw [hp] at hm
    simp only [decide_eq_true_eq] at hm ⊢
    exact dtLe_trans h hm

lemma sum_filter_mono (l : List Order) (p q : Order → Bool)
    (h : ∀ o, p o = true → q o = true)
    (hpos : ∀ o ∈ l, 0 ≤ o.total_amount) :
    ((l.filter p).map Order.total_amount).sum ≤
      ((l.filter q).map Order.total_amount).sum := by
  induction l with
  | nil => simp
  | cons a l ih =>
    have ha := hpos a (by simp)
    have hl : ∀ o ∈ l, 0 ≤ o.total_amount := fun o ho => hpos o (by simp [ho])
    have hrec := ih hl
    by_cases hq : q a = true
    · by_cases hp : p a = true
      · simp only [List.filter_cons, hp, hq, if_true, List.map_cons, List.sum_cons]
        linarith
      · simp only [List.filter_cons, hq, if_true, List.map_cons, List.sum_cons,
          Bool.not_eq_true] at *
        rw [hp]
        simp only [Bool.false_eq_true, if_false]
        linarith
    · have hp : p a = false := by
        cases hpa : p a
        · rfl
        · exact absurd (h a hpa) hq
      have hq' : q a = false := by
        cases hqa : q a
        · rfl
        · exact absurd hqa hq
      simpa [List.filter_cons, hp, hq'] using hrec

lemma find?_map_mkDayGroup (m : List Order) (d : Int) (ks : List Int) :
    ((ks.map (mkDayGroup m)).find? fun g => decide (g.day = d)) =
      if d ∈ ks then some (mkDayGroup m d) else none := by
  induction ks with
  | nil => simp
  | cons k ks ih =>
    by_cases hk : k = d
    · subst hk
      simp [List.find?_cons, mkDayGroup]
    · simp [List.find?_cons, mkDayGroup, hk, ih, Ne.symm hk]

lemma find?_groupByDay (m : List Order) (d : Int) :
    ((groupByDay m).find? fun g => decide (g.day = d)) =
      if d ∈ (m.filterMap dayOf).dedup then some (mkDayGroup m d) else none := by
  unfold groupByDay
  exact find?_map_mkDayGroup m d _

/-- Entry `i` of the time series: present for every `i < 14`, keyed by the
`i`-th of the 14 days, and aggregating exactly the matched orders placed on
that day. -/
lemma timeseries_get (orders : List Order) (now : DateTime) (i : Nat) (h : i < 14) :
    (timeseries orders now)[i]? =
      some { day := now.days - 13 + (i : Int)
             revenue := ((orders.filter fun o =>
                 decide (dayOf o = some (now.days - 13 + (i : Int))) &&
                   matchesWindow (subDays now 13) o).map Order.total_amount).sum
             orders := (orders.filter fun o =>
                 decide (dayOf o = some (now.days - 13 + (i : Int))) &&
                   matchesWindow (subDays now 13) o).length } := by
  unfold timeseries
  rw [List.getElem?_map, List.getElem?_map, List.getElem?_range h]
  simp only [Option.map_some', subDays]
  rw [find?_groupByDay]
  by_cases hd : (now.days - 13 + (i : Int)) ∈
      (((orders.filter (matchesWindow (subDays now 13))).filterMap dayOf).dedup)
  · simp only [subDays] at hd
    rw [if_pos hd]
    simp only [mkDayGroup, subDays, List.filter_filter]
  · simp only [subDays] at hd
    rw [if_neg hd]
    have hnil : (orders.filter fun o =>
        decide (dayOf o = some (now.days - 13 + (i : Int))) &&
          matchesWindow (subDays now 13) o) = [] := by
      rw [List.filter_eq_nil_iff]
      intro a ha hcontra
      simp only [Bool.and_eq_true, decide_eq_true_eq] at hcontra
      exact hd (List.mem_dedup.mpr (List.mem_filterMap.mpr
        ⟨a, List.mem_filter.mpr ⟨ha, hcontra.2⟩, hcontra.1⟩))
    simp only [subDays] at hnil
    rw [hnil]
    simp

lemma filter_proj_eq (s : DateTime) (l₁ l₂ : List Order)
    (h : l₁.map (fun o => (o.placed_at, o.total_amount)) =
      l₂.map (fun o => (o.placed_at, o.total_amount))) :
    (l₁.filter (matchesWindow s)).map (fun o => (o.placed_at, o.total_amount)) =
      (l₂.filter (matchesWindow s)).map (fun o => (o.placed_at, o.total_amount)) := by
  induction l₁ generalizing l₂ with
  | nil => cases l₂ with
    | nil => rfl
    | cons b l₂ => exact absurd h (by simp)
  | cons a l₁ ih =>
    cases l₂ with
    | nil => exact absurd h (by simp)
    | cons b l₂ =>
      simp only [List.map_cons, List.cons.injEq] at h
      have hpa : a.placed_at = b.placed_at := congrArg Prod.fst h.1
      have hmw : matchesWindow s a = matchesWindow s b := by
        unfold matchesWindow; rw [hpa]
      by_cases hm : matchesWindow s b = true
      · simp only [List.filter_cons, hmw, hm, if_true, List.map_cons]
        exact List.cons_eq_cons.mpr ⟨h.1, ih l₂ h.2⟩
      · have hm' : matchesWindow s b = false := by
          cases hmb : matchesWindow s b
          · rfl
          · exact absurd hmb hm
        simp only [List.filter_cons, hmw, hm', Bool.false_eq_true, if_false]
        exact ih l₂ h.2

lemma salesWindow_congr (l₁ l₂ : List Order) (s : DateTime)
    (h : l₁.map (fun o => (o.placed_at, o.total_amount)) =
      l₂.map (fun o => (o.placed_at, o.total_amount))) :
    salesWindow l₁ s = salesWindow l₂ s := by
  have hf := filter_proj_eq s l₁ l₂ h
  rw [salesWindow_eq, salesWindow_eq]
  have hm1 : (l₁.filter (matchesWindow s)).map Order.total_amount =
      ((l₁.filter (matchesWindow s)).map (fun o => (o.placed_at, o.total_amount))).map Prod.snd := by
    rw [List.map_map]; rfl
  have hm2 : (l₂.filter (matchesWindow s)).map Order.total_amount =
      ((l₂.filter (matchesWindow s)).map (fun o => (o.placed_at, o.total_amount))).map Prod.snd := by
    rw [List.map_map]; rfl
  have hlen : (l₁.filter (matchesWindow s)).length = (l₂.filter (matchesWindow s)).length := by
    have := congrArg List.length hf
    simpa using this
  rw [hm1, hm2, hf, hlen]

lemma filter_proj_items_eq (s : DateTime) (l₁ l₂ : List Order)
    (h : l₁.map (fun o => (o.placed_at, o.items)) = l₂.map (fun o => (o.placed_at, o.items))) :
    (l₁.filter (matchesWindow s)).map (fun o => (o.placed_at, o.items)) =
      (l₂.filter (matchesWindow s)).map (fun o => (o.placed_at, o.items)) := by
  induction l₁ generalizing l₂ with
  | nil => cases l₂ with
    | nil => rfl
    | cons b l₂ => exact absurd h (by simp)
  | cons a l₁ ih =>
    cases l₂ with
    | nil => exact absurd h (by simp)
    | cons b l₂ =>
      simp only [List.map_cons, List.cons.injEq] at h
      have hpa : a.placed_at = b.placed_at := congrArg Prod.fst h.1
      have hmw : matchesWindow s a = matchesWindow s b := by
        unfold matchesWindow; rw [hpa]
      by_cases hm : matchesWindow s b = true
      · simp only [List.filter_cons, hmw, hm, if_true, List.map_cons]
        exact List.cons_eq_cons.mpr ⟨h.1, ih l₂ h.2⟩
      · have hm' : matchesWindow s b = false := by
          cases hmb : matchesWindow s b
          · rfl
          · exact absurd hmb hm
        simp only [List.filter_cons, hmw, hm', Bool.false_eq_true, if_false]
        exact ih l₂ h.2

lemma unwindItems_congr (l₁ l₂ : List Order) (d : DateTime)
    (h : l₁.map (fun o => (o.placed_at, o.items)) = l₂.map (fun o => (o.placed_at, o.items))) :
    unwindItems l₁ d = unwindItems l₂ d := by
  have hf := filter_proj_items_eq d l₁ l₂ h
  have hit : (l₁.filter (matchesWindow d)).map Order.items =
      (l₂.filter (matchesWindow d)).map Order.items := by
    have h1 : (l₁.filter (matchesWindow d)).map Order.items =
        ((l₁.filter (matchesWindow d)).map (fun o => (o.placed_at, o.items))).map Prod.snd := by
      rw [List.map_map]; rfl
    have h2 : (l₂.filter (matchesWindow d)).map Order.items =
        ((l₂.filter (matchesWindow d)).map (fun o => (o.placed_at, o.items))).map Prod.snd := by
      rw [List.map_map]; rfl
    rw [h1, h2, hf]
  show ((l₁.filter (matchesWindow d)).map Order.items).flatten =
    ((l₂.filter (matchesWindow d)).map Order.items).flatten
  rw [hit]

lemma topProducts_congr (l₁ l₂ : List Order) (now : DateTime)
    (h : l₁.map (fun o => (o.placed_at, o.items)) = l₂.map (fun o => (o.placed_at, o.items))) :
    topProducts l₁ now = topProducts l₂ now := by
  unfold topProducts
  rw [unwindItems_congr l₁ l₂ (subDays now 30) h]

lemma groupProducts_length (its : List OrderItem) :
    (groupProducts its).length = ((its.map itemKey).dedup).length := by
  unfold groupProducts
  rw [List.length_map]

lemma topProducts_length (orders : List Order) (now : DateTime) :
    (topProducts orders now).length =
      min 5 (groupProducts (unwindItems orders (subDays now 30))).length := by
  unfold topProducts
  rw [List.length_map, List.length_take, List.length_mergeSort]

lemma topProducts_sorted (orders : List Order) (now : DateTime) :
    (topProducts orders now).Pairwise fun a b => b.revenue ≤ a.revenue := by
  unfold topProducts
  rw [List.pairwise_map]
  have htrans : ∀ (a b c : ProductGroup),
      decide (b.revenue ≤ a.revenue) → decide (c.revenue ≤ b.revenue) →
        decide (c.revenue ≤ a.revenue) = true := by
    intro a b c hab hbc
    simp only [decide_eq_true_eq] at *
    exact le_trans hbc hab
  have htotal : ∀ (a b : ProductGroup),
      decide (b.revenue ≤ a.revenue) || decide (a.revenue ≤ b.revenue) := by
    intro a b
    simp only [Bool.or_eq_true, decide_eq_true_eq]
    exact le_total _ _
  have hs := List.sorted_mergeSort htrans htotal
    (groupProducts (unwindItems orders (subDays now 30)))
  have h5 : ((groupProducts (unwindItems orders (subDays now 30))).mergeSort
      (fun a b => decide (b.revenue ≤ a.revenue))).take 5
        |>.Pairwise (fun a b => decide (b.revenue ≤ a.revenue)) :=
    hs.sublist (List.take_sublist 5 _)
  exact h5.imp fun h => roundTo2_mono (of_decide_eq_true h)

lemma mem_topProducts (orders : List Order) (now : DateTime) :
    ∀ row ∈ topProducts orders now, ∃ k,
      k ∈ ((unwindItems orders (subDays now 30)).map itemKey).dedup ∧
      row = { product_id := k.1, title := k.2
              quantity := (mkProductGroup (unwindItems orders (subDays now 30)) k).quantity
              revenue := roundTo2 (mkProductGroup (unwindItems orders (subDays now 30)) k).revenue } := by
  unfold topProducts
  intro row hrow
  rw [List.mem_map] at hrow
  obtain ⟨g, hg, rfl⟩ := hrow
  have hg1 : g ∈ (groupProducts (unwindItems orders (subDays now 30))).mergeSort
      (fun a b => decide (b.revenue ≤ a.revenue)) := (List.take_sublist 5 _).subset hg
  rw [List.mem_mergeSort] at hg1
  unfold groupProducts at hg1
  rw [List.mem_map] at hg1
  obtain ⟨k, hk, rfl⟩ := hg1
  exact ⟨k, hk, rfl⟩

lemma segments_sorted (cs : List Customer) :
    (segments cs).Pairwise fun a b => b.count ≤ a.count := by
  unfold segments
  rw [List.pairwise_map]
  have htrans : ∀ (a b c : SegGroup),
      decide (b.count ≤ a.count) → decide (c.count ≤ b.count) →
        decide (c.count ≤ a.count) = true := by
    intro a b c hab hbc
    simp only [decide_eq_true_eq] at *
    exact le_trans hbc hab
  have htotal : ∀ (a b : SegGroup),
      decide (b.count ≤ a.count) || decide (a.count ≤ b.count) := by
    intro a b
    simp only [Bool.or_eq_true, decide_eq_true_eq]
    exact le_total _ _
  exact (List.sorted_mergeSort htrans htotal (groupSegments cs)).imp
    fun h => of_decide_eq_true h

lemma segments_perm (cs : List Customer) :
    List.Perm (segments cs) (((cs.map Customer.segment).dedup).map fun s =>
      { segment := segLabel s
        count := (cs.filter fun c => decide (c.segment = s)).length }) := by
  unfold segments
  have hp := List.mergeSort_perm (groupSegments cs)
    (fun a b => decide (b.count ≤ a.count))
  have hmapped := hp.map fun g => SegRow.mk (segLabel g._id) g.count
  refine hmapped.trans ?_
  unfold groupSegments
  rw [List.map_map]
  exact List.Perm.refl _

lemma startMonth_le_startToday (now : DateTime) :
    dtLe (startMonth now) (startToday now) := by
  have := firstOfMonthDays_le now.days
  unfold startMonth startToday dtLe
  simp only
  omega

/-! ### Claim theorems -/

/-- C7: when the record store handle is absent the overview operation fails
as a whole with the configuration error, and never returns any report. -/
theorem c7_config_error (now : DateTime) :
    analyticsOverview none now = Except.error "Database not configured" ∧
    ∀ r : Overview, analyticsOverview none now ≠ Except.ok r := by
  refine ⟨rfl, ?_⟩
  intro r h
  simp [analyticsOverview] at h

/-- C7 witness at a concrete instant. -/
theorem c7_witness :
    analyticsOverview none ⟨0, 0⟩ = Except.error "Database not configured" :=
  (c7_config_error ⟨0, 0⟩).1

/-- C8: the today/month-to-date aggregates depend on each order only through
`(placed_at, total_amount)` — the stored total is read directly, the items
are never consulted — while the top-products ranking depends on each order
only through `(placed_at, items)`, recomputing revenue as price times
quantity and never consulting the stored total. -/
theorem c8_total_vs_items (l₁ l₂ : List Order) (now : DateTime) :
    (l₁.map (fun o => (o.placed_at, o.total_amount)) =
        l₂.map (fun o => (o.placed_at, o.total_amount)) →
      salesWindow l₁ (startToday now) = salesWindow l₂ (startToday now) ∧
      salesWindow l₁ (startMonth now) = salesWindow l₂ (startMonth now)) ∧
    (l₁.map (fun o => (o.placed_at, o.items)) = l₂.map (fun o => (o.placed_at, o.items)) →
      topProducts l₁ now = topProducts l₂ now) :=
  ⟨fun h => ⟨salesWindow_congr _ _ _ h, salesWindow_congr _ _ _ h⟩,
   fun h => topProducts_congr _ _ _ h⟩

/-- C8 witness: `oI1` stores `total_amount = 100` though its items sum to 6;
replacing its items (`oI2`) leaves the window aggregates unchanged, and
replacing its stored total by the item-consistent one (`oI3`) leaves the
top-products ranking unchanged. -/
theorem c8_witness :
    salesWindow [oI1] (startToday ⟨0, 0⟩) = salesWindow [oI2] (startToday ⟨0, 0⟩) ∧
    topProducts [oI1] ⟨0, 0⟩ = topProducts [oI3] ⟨0, 0⟩ :=
  ⟨((c8_total_vs_items [oI1] [oI2] ⟨0, 0⟩).1 rfl).1,
   (c8_total_vs_items [oI1] [oI3] ⟨0, 0⟩).2 rfl⟩

/-- C10: the today window is contained in the month-to-date window (midnight
of the current day is never before the first of the month), hence the today
order count never exceeds the month-to-date count, and with non-negative
order totals the today revenue never exceeds the month-to-date revenue. -/
theorem c10_today_within_mtd (s : Store) (now : DateTime) :
    dtLe (startMonth now) (startToday now) ∧
    (overviewImpl s now).today_orders ≤ (overviewImpl s now).mtd_orders ∧
    ((∀ o ∈ s.order, 0 ≤ o.total_amount) →
      (overviewImpl s now).today_revenue ≤ (overviewImpl s now).mtd_revenue) := by
  have hsm := startMonth_le_startToday now
  have himp : ∀ o : Order, matchesWindow (startToday now) o = true →
      matchesWindow (startMonth now) o = true :=
    fun o hm => matchesWindow_mono hsm o hm
  refine ⟨hsm, ?_, ?_⟩
  · show (salesWindow s.order (startToday now)).2 ≤ (salesWindow s.order (startMonth now)).2
    rw [salesWindow_eq, salesWindow_eq]
    exact (List.monotone_filter_right s.order himp).length_le
  · intro hpos
    show roundTo2 (salesWindow s.order (startToday now)).1 ≤
      roundTo2 (salesWindow s.order (startMonth now)).1
    apply roundTo2_mono
    rw [salesWindow_eq, salesWindow_eq]
    exact sum_filter_mono s.order _ _ himp hpos

/-- C10 witness on a concrete store with non-negative totals. -/
theorem c10_witness :
    dtLe (startMonth ⟨0, 0⟩) (startToday ⟨0, 0⟩) ∧
    (overviewImpl sW6 ⟨0, 0⟩).today_orders ≤ (overviewImpl sW6 ⟨0, 0⟩).mtd_orders ∧
    (overviewImpl sW6 ⟨0, 0⟩).today_revenue ≤ (overviewImpl sW6 ⟨0, 0⟩).mtd_revenue := by
  refine ⟨(c10_today_within_mtd sW6 ⟨0, 0⟩).1, (c10_today_within_mtd sW6 ⟨0, 0⟩).2.1,
    (c10_today_within_mtd sW6 ⟨0, 0⟩).2.2 ?_⟩
  intro o ho
  simp only [sW6, List.mem_cons, List.not_mem_nil, or_false] at ho
  rcases ho with rfl | rfl <;> norm_num [oW6a, oW6b]

/-- C6: the average order value is `0` by the explicit zero-orders branch,
and otherwise `round(revenue / orders, 2)` over the month-to-date window
aggregate; with cent-valued order totals the same formula also holds for the
reported (rounded) `mtd_revenue` field.  The division is total in this
model, and the zero case never evaluates it. -/
theorem c6_avg_order_value (s : Store) (now : DateTime) :
    ((overviewImpl s now).mtd_orders = 0 → (overviewImpl s now).avg_order_value = 0) ∧
    ((overviewImpl s now).mtd_orders ≠ 0 →
      (overviewImpl s now).avg_order_value =
        roundTo2 ((salesWindow s.order (startMonth now)).1 /
          ((salesWindow s.order (startMonth now)).2 : ℚ))) ∧
    ((∀ o ∈ s.order, TwoDecimal o.total_amount) → (overviewImpl s now).mtd_orders ≠ 0 →
      (overviewImpl s now).avg_order_value =
        roundTo2 ((overviewImpl s now).mtd_revenue /
          ((overviewImpl s now).mtd_orders : ℚ))) := by
  refine ⟨?_, ?_, ?_⟩
  · intro h0
    show avgOrderValue (salesWindow s.order (startMonth now)) = 0
    unfold avgOrderValue
    rw [if_neg]
    intro hne
    exact hne h0
  · intro hne
    have hne' : (salesWindow s.order (startMonth now)).2 ≠ 0 := hne
    show avgOrderValue (salesWindow s.order (startMonth now)) =
      roundTo2 ((salesWindow s.order (startMonth now)).1 /
        ((salesWindow s.order (startMonth now)).2 : ℚ))
    unfold avgOrderValue
    rw [if_pos hne']
  · intro hcents hne
    have h2d : TwoDecimal (salesWindow s.order (startMonth now)).1 := by
      rw [salesWindow_eq]
      exact TwoDecimal_listSum _ fun o ho => hcents o (List.mem_of_mem_filter ho)
    have hrev : (overviewImpl s now).mtd_revenue =
        (salesWindow s.order (startMonth now)).1 := TwoDecimal_roundTo2_eq h2d
    have hne' : (salesWindow s.order (startMonth now)).2 ≠ 0 := hne
    rw [hrev]
    show avgOrderValue (salesWindow s.order (startMonth now)) =
      roundTo2 ((salesWindow s.order (startMonth now)).1 /
        ((salesWindow s.order (startMonth now)).2 : ℚ))
    unfold avgOrderValue
    rw [if_pos hne']

/-- C6 witness: a store with two orders (10 and 15.50) placed this month. -/
theorem c6_witness :
    (overviewImpl sW6 ⟨0, 0⟩).avg_order_value =
      roundTo2 ((salesWindow sW6.order (startMonth ⟨0, 0⟩)).1 /
        ((salesWindow sW6.order (startMonth ⟨0, 0⟩)).2 : ℚ)) :=
  (c6_avg_order_value sW6 ⟨0, 0⟩).2.1 (by decide)

/-- C1 (amended): provided no stored order is placed after the query instant
`now`, the today and month-to-date aggregates return exactly the sum of
`total_amount` and the count over the orders whose `placed_at` lies in the
claimed window `[start, now]`; with an empty window both components are the
empty sum and count, `0`.  (The code's `$match` applies only the lower
bound, so without that proviso a future-dated order is also counted — see
the counterexample.) -/
theorem c1_window_revenue_orders (orders : List Order) (now : DateTime)
    (hnf : ∀ o ∈ orders, ∀ t, o.placed_at = some t → dtLe t now) :
    salesWindow orders (startToday now) =
      (((orders.filter (inClosedWindow (startToday now) now)).map Order.total_amount).sum,
        (orders.filter (inClosedWindow (startToday now) now)).length) ∧
    salesWindow orders (startMonth now) =
      (((orders.filter (inClosedWindow (startMonth now) now)).map Order.total_amount).sum,
        (orders.filter (inClosedWindow (startMonth now) now)).length) := by
  have key : ∀ s : DateTime,
      orders.filter (inClosedWindow s now) = orders.filter (matchesWindow s) := by
    intro s
    apply List.filter_congr
    intro o ho
    unfold inClosedWindow matchesWindow
    cases hp : o.placed_at with
    | none => rfl
    | some t => simp [hnf o ho t hp]
  constructor <;> rw [key, salesWindow_eq]

/-- C1 witness: one order placed 50 seconds before the query instant. -/
theorem c1_witness :
    salesWindow [oW1] (startToday nowW1) =
      ((([oW1].filter (inClosedWindow (startToday nowW1) nowW1)).map Order.total_amount).sum,
        ([oW1].filter (inClosedWindow (startToday nowW1) nowW1)).length) := by
  refine (c1_window_revenue_orders [oW1] nowW1 ?_).1
  intro o ho t ht
  rw [List.mem_singleton] at ho
  subst ho
  have htv : t = (⟨5, 50⟩ : DateTime) := by
    have : (some (⟨5, 50⟩ : DateTime)) = some t := ht
    exact (Option.some_inj.mp this).symm
  subst htv
  decide

/-- C1 counterexample: the order `oC1` is placed five seconds after `nowC1`,
so it lies outside the claimed window `[start_today, now]` — the claim
predicts zero orders — yet the pipeline's lower-bound-only `$match` counts
it. -/
theorem c1_counterexample :
    (salesWindow [oC1] (startToday nowC1)).2 = 1 ∧
    [oC1].filter (inClosedWindow (startToday nowC1) nowC1) = [] := by
  constructor
  · rfl
  · rfl

/-- C2: the time series always has exactly 14 entries; entry `i` carries the
`i`-th of the 14 consecutive calendar days ending today (oldest first), and
every day on which no order was placed appears explicitly with revenue `0`
and order count `0`. -/
theorem c2_timeseries_gapfill (orders : List Order) (now : DateTime) :
    (timeseries orders now).length = 14 ∧
    ∀ i : Nat, i < 14 → ∃ e : TsEntry,
      (timeseries orders now)[i]? = some e ∧
      e.day = now.days - 13 + (i : Int) ∧
      ((∀ o ∈ orders, ¬(dayOf o = some (now.days - 13 + (i : Int)) ∧
          matchesWindow (subDays now 13) o = true)) →
        e.revenue = 0 ∧ e.orders = 0) := by
  constructor
  · unfold timeseries
    rw [List.length_map, List.length_map, List.length_range]
  · intro i hi
    refine ⟨_, timeseries_get orders now i hi, rfl, ?_⟩
    intro hno
    have hnil : (orders.filter fun o =>
        decide (dayOf o = some (now.days - 13 + (i : Int))) &&
          matchesWindow (subDays now 13) o) = [] := by
      rw [List.filter_eq_nil_iff]
      intro a ha hc
      simp only [Bool.and_eq_true, decide_eq_true_eq] at hc
      exact hno a ha hc
    constructor
    · show ((orders.filter fun o =>
          decide (dayOf o = some (now.days - 13 + (i : Int))) &&
            matchesWindow (subDays now 13) o).map Order.total_amount).sum = 0
      rw [hnil]
      rfl
    · show (orders.filter fun o =>
          decide (dayOf o = some (now.days - 13 + (i : Int))) &&
            matchesWindow (subDays now 13) o).length = 0
      rw [hnil]
      rfl

/-- C2 witness: the empty order set still yields a full 14-entry series with
an explicit zero entry at position 3. -/
theorem c2_witness :
    (timeseries [] ⟨0, 0⟩).length = 14 ∧
    ∃ e : TsEntry, (timeseries ([] : List Order) ⟨0, 0⟩)[3]? = some e ∧
      e.day = (⟨0, 0⟩ : DateTime).days - 13 + ((3 : Nat) : Int) ∧
      ((∀ o ∈ ([] : List Order),
          ¬(dayOf o = some ((⟨0, 0⟩ : DateTime).days - 13 + ((3 : Nat) : Int)) ∧
            matchesWindow (subDays ⟨0, 0⟩ 13) o = true)) →
        e.revenue = 0 ∧ e.orders = 0) :=
  ⟨(c2_timeseries_gapfill [] ⟨0, 0⟩).1,
   (c2_timeseries_gapfill [] ⟨0, 0⟩).2 3 (by norm_num)⟩

/-- C3 (amended): for each of the 13 most recent days of the series, the
entry aggregates exactly the orders whose `placed_at` formatted as a UTC
calendar day equals that day; for the oldest day, the `$gte now - 13d` match
additionally drops the orders of that day placed earlier in the day than
`now`'s time of day, so only the remainder is aggregated. -/
theorem c3_timeseries_day_sums (orders : List Order) (now : DateTime) :
    (∀ i : Nat, 1 ≤ i → i < 14 →
      (timeseries orders now)[i]? = some
        { day := now.days - 13 + (i : Int)
          revenue := ((orders.filter fun o =>
              decide (dayOf o = some (now.days - 13 + (i : Int)))).map
                Order.total_amount).sum
          orders := (orders.filter fun o =>
              decide (dayOf o = some (now.days - 13 + (i : Int)))).length }) ∧
    ((timeseries orders now)[0]? = some
        { day := now.days - 13
          revenue := ((orders.filter (onOldestDayCounted now)).map Order.total_amount).sum
          orders := (orders.filter (onOldestDayCounted now)).length }) := by
  constructor
  · intro i h1 h14
    rw [timeseries_get orders now i h14]
    have hfe : (orders.filter fun o =>
        decide (dayOf o = some (now.days - 13 + (i : Int))) &&
          matchesWindow (subDays now 13) o)
        = orders.filter fun o =>
            decide (dayOf o = some (now.days - 13 + (i : Int))) := by
      apply List.filter_congr
      intro o _
      cases hp : o.placed_at with
      | none => simp [dayOf, matchesWindow, hp]
      | some t =>
        simp only [dayOf, matchesWindow, hp, Option.map_some']
        by_cases hd : t.days = now.days - 13 + (i : Int)
        · have hle : dtLe (subDays now 13) t := by
            unfold subDays dtLe
            left
            simp only
            omega
          simp [hd, hle]
        · simp [hd]
    rw [hfe]
  · rw [timeseries_get orders now 0 (by norm_num)]
    have hfe : (orders.filter fun o =>
        decide (dayOf o = some (now.days - 13 + ((0 : Nat) : Int))) &&
          matchesWindow (subDays now 13) o)
        = orders.filter (onOldestDayCounted now) := by
      apply List.filter_congr
      intro o _
      cases hp : o.placed_at with
      | none => simp [dayOf, matchesWindow, onOldestDayCounted, hp]
      | some t =>
        simp only [dayOf, matchesWindow, onOldestDayCounted, hp, Option.map_some',
          Nat.cast_zero, add_zero, Option.some_inj]
        by_cases hd : t.days = now.days - 13
        · have hiff : dtLe (subDays now 13) t ↔ now.secs ≤ t.secs := by
            unfold subDays dtLe
            simp only
            omega
          simp [hd, hiff]
        · simp [hd]
    rw [hfe]
    simp

/-- C3 witness: an order on the second-oldest day is aggregated into entry 1. -/
theorem c3_witness :
    (timeseries [oW3] nowC3)[1]? = some
      { day := nowC3.days - 13 + ((1 : Nat) : Int)
        revenue := (([oW3].filter fun o =>
            decide (dayOf o = some (nowC3.days - 13 + ((1 : Nat) : Int)))).map
              Order.total_amount).sum
        orders := ([oW3].filter fun o =>
            decide (dayOf o = some (nowC3.days - 13 + ((1 : Nat) : Int)))).length } :=
  (c3_timeseries_day_sums [oW3] nowC3).1 1 (by norm_num) (by norm_num)

/-- C3 counterexample: `oC3` is placed at midnight of the oldest day of the
series of `nowC3` (whose time of day is one second past midnight).  The
claim says the order is counted toward that day, so entry 0 would show
revenue 10 and one order; the code's `$gte now - 13d` match drops it and
entry 0 is zero. -/
theorem c3_counterexample :
    (timeseries [oC3] nowC3)[0]? =
      some { day := nowC3.days - 13, revenue := 0, orders := 0 } ∧
    dayOf oC3 = some (nowC3.days - 13) ∧
    ([oC3].filter fun o => decide (dayOf o = some (nowC3.days - 13))).length = 1 ∧
    oC3.total_amount = 10 := by
  refine ⟨?_, rfl, rfl, rfl⟩
  rw [timeseries_get [oC3] nowC3 0 (by norm_num)]
  have hnil : ([oC3].filter fun o =>
      decide (dayOf o = some (nowC3.days - 13 + ((0 : Nat) : Int))) &&
        matchesWindow (subDays nowC3 13) o) = [] := by decide
  rw [hnil]
  simp

/-- C4 (amended): provided no stored order is placed after the query instant
`now`, the top-products ranking flattens the line items of the orders in the
trailing 30-day window `[now - 30d, now]`, groups them by the exact
`(product_id, title)` pair, reports each group's summed quantity and its
revenue (the sum of price times quantity) rounded to two decimals, sorts
descending by revenue and returns at most 5 groups — all of them when fewer
than 5 exist, since the length is exactly `min 5 (number of groups)`.
(Without the proviso a future-dated order's items are also ranked: the
code's `$match` applies only the lower bound — see the counterexample.) -/
theorem c4_top_products (orders : List Order) (now : DateTime)
    (hnf : ∀ o ∈ orders, ∀ t, o.placed_at = some t → dtLe t now) :
    (topProducts orders now).length =
      min 5 ((((orders.filter (inClosedWindow (subDays now 30) now)).flatMap
        Order.items).map itemKey).dedup.length) ∧
    ((topProducts orders now).Pairwise fun a b => b.revenue ≤ a.revenue) ∧
    (∀ row ∈ topProducts orders now,
      row.quantity = ((((orders.filter (inClosedWindow (subDays now 30) now)).flatMap
          Order.items).filter fun it =>
            decide (itemKey it = (row.product_id, row.title))).map
              OrderItem.quantity).sum ∧
      row.revenue = roundTo2 (((((orders.filter (inClosedWindow (subDays now 30) now)).flatMap
          Order.items).filter fun it =>
            decide (itemKey it = (row.product_id, row.title))).map fun it =>
              it.price * (it.quantity : ℚ)).sum)) := by
  have hwin : orders.filter (inClosedWindow (subDays now 30) now) =
      orders.filter (matchesWindow (subDays now 30)) := by
    apply List.filter_congr
    intro o ho
    unfold inClosedWindow matchesWindow
    cases hp : o.placed_at with
    | none => rfl
    | some t => simp [hnf o ho t hp]
  have hitems : (orders.filter (inClosedWindow (subDays now 30) now)).flatMap Order.items
      = unwindItems orders (subDays now 30) := by
    rw [hwin]
    rfl
  refine ⟨?_, topProducts_sorted orders now, ?_⟩
  · rw [topProducts_length, groupProducts_length, hitems]
  · intro row hrow
    obtain ⟨k, hk, hrowe⟩ := mem_topProducts orders now row hrow
    subst hrowe
    rw [hitems]
    exact ⟨rfl, rfl⟩

/-- C4 witness: a store whose single order holds two distinct product
groups; both are returned. -/
theorem c4_witness :
    (topProducts [oW4] nowC4).length =
      min 5 (((([oW4].filter (inClosedWindow (subDays nowC4 30) nowC4)).flatMap
        Order.items).map itemKey).dedup.length) ∧
    (topProducts [oW4] nowC4).length = 2 := by
  have hnf : ∀ o ∈ [oW4], ∀ t, o.placed_at = some t → dtLe t nowC4 := by
    intro o ho t ht
    rw [List.mem_singleton] at ho
    subst ho
    have htv : t = (⟨0, 0⟩ : DateTime) := by
      have h : (some (⟨0, 0⟩ : DateTime)) = some t := ht
      exact (Option.some_inj.mp h).symm
    subst htv
    decide
  refine ⟨(c4_top_products [oW4] nowC4 hnf).1, ?_⟩
  rw [(c4_top_products [oW4] nowC4 hnf).1]
  decide

/-- C4 counterexample: the order `oC4` is placed one day after `nowC4`, so
no order lies in the claimed window `[now - 30d, now]` and the claim
predicts an empty ranking; the pipeline's lower-bound-only `$match`
nevertheless ranks its product. -/
theorem c4_counterexample :
    (topProducts [oC4] nowC4).length = 1 ∧
    [oC4].filter (inClosedWindow (subDays nowC4 30) nowC4) = [] := by
  constructor
  · rw [topProducts_length, groupProducts_length]
    decide
  · rfl

/-- C5 (amended): the segments output has one row per distinct raw value of
the `segment` field — customers with a missing/`None` segment form one
group and customers with the empty-string segment a separate group — each
row counting the customers carrying exactly that raw value; the fallback
label "Uncategorized" is applied to a row after counting (so several rows
can share it), and the rows are sorted descending by count. -/
theorem c5_segments (cs : List Customer) :
    ((segments cs).Pairwise fun a b => b.count ≤ a.count) ∧
    List.Perm (segments cs) (((cs.map Customer.segment).dedup).map fun s =>
      { segment := segLabel s
        count := (cs.filter fun c => decide (c.segment = s)).length }) :=
  ⟨segments_sorted cs, segments_perm cs⟩

/-- C5 counterexample: one customer with `segment = None` and one with
`segment = ""`.  The claim says both count toward one group, which would
make the output the single pair ("Uncategorized", 2); the code instead
emits two rows, each labelled "Uncategorized" with count 1. -/
theorem c5_counterexample :
    (segments [cC5a, cC5b]).length = 2 ∧
    List.Perm ((segments [cC5a, cC5b]).map SegRow.segment)
      ["Uncategorized", "Uncategorized"] ∧
    List.Perm ((segments [cC5a, cC5b]).map SegRow.count) [1, 1] := by
  have hp := segments_perm [cC5a, cC5b]
  have htarget : ((([cC5a, cC5b].map Customer.segment).dedup).map fun s =>
      ({ segment := segLabel s
         count := ([cC5a, cC5b].filter fun c => decide (c.segment = s)).length } : SegRow))
      = [{ segment := "Uncategorized", count := 1 },
         { segment := "Uncategorized", count := 1 }] := by decide
  rw [htarget] at hp
  refine ⟨hp.length_eq, ?_, ?_⟩
  · simpa using hp.map SegRow.segment
  · simpa using hp.map SegRow.count

/-- C9: every monetary field of the assembled report — `today_revenue`,
`mtd_revenue`, `avg_order_value`, and each `top_products` revenue — is a
fixed point of rounding to two decimals, while the `timeseries` revenues
are emitted unrounded: there is an input on which a time-series revenue is
not a two-decimal value. -/
theorem c9_rounding (s : Store) (now : DateTime) :
    roundTo2 (overviewImpl s now).today_revenue = (overviewImpl s now).today_revenue ∧
    roundTo2 (overviewImpl s now).mtd_revenue = (overviewImpl s now).mtd_revenue ∧
    roundTo2 (overviewImpl s now).avg_order_value = (overviewImpl s now).avg_order_value ∧
    (∀ p ∈ (overviewImpl s now).top_products, roundTo2 p.revenue = p.revenue) ∧
    (∃ s' : Store, ∃ now' : DateTime, ∃ e,
      e ∈ (overviewImpl s' now').timeseries ∧ roundTo2 e.revenue ≠ e.revenue) := by
  refine ⟨roundTo2_idem _, roundTo2_idem _, ?_, ?_, ?_⟩
  · show roundTo2 (avgOrderValue (salesWindow s.order (startMonth now))) =
      avgOrderValue (salesWindow s.order (startMonth now))
    unfold avgOrderValue
    split_ifs
    · exact roundTo2_idem _
    · exact roundTo2_zero
  · intro p hp
    obtain ⟨k, hk, hpe⟩ := mem_topProducts s.order now p hp
    subst hpe
    exact roundTo2_idem _
  · refine ⟨sW9, ⟨0, 0⟩, ?_⟩
    have hget := timeseries_get [oW9] ⟨0, 0⟩ 13 (by norm_num)
    have hfil : ([oW9].filter fun o =>
        decide (dayOf o = some ((⟨0, 0⟩ : DateTime).days - 13 + ((13 : Nat) : Int))) &&
          matchesWindow (subDays ⟨0, 0⟩ 13) o) = [oW9] := by
      norm_num [oW9, dayOf, matchesWindow, subDays, dtLe, List.filter]
    rw [hfil] at hget
    refine ⟨_, List.getElem?_mem hget, ?_⟩
    show roundTo2 (([oW9].map Order.total_amount).sum) ≠ ([oW9].map Order.total_amount).sum
    have hsum : ([oW9].map Order.total_amount).sum = 1/1000 := by
      simp [oW9]
    rw [hsum]
    have hf : ⌊(1/1000 : ℚ) * 100⌋ = 0 := by
      rw [Int.floor_eq_zero_iff]
      constructor <;> norm_num
    have hz : roundTo2 (1/1000) = 0 := by
      unfold roundTo2 roundHalfEven
      rw [hf]
      norm_num
    rw [hz]
    norm_num

/-- C9 witness: a concrete store with one ranked product; its reported
revenue is a fixed point of two-decimal rounding. -/
theorem c9_witness :
    ∃ p, p ∈ (overviewImpl sW9t ⟨0, 0⟩).top_products ∧
      roundTo2 p.revenue = p.revenue := by
  have hlen : (topProducts [oI3] ⟨0, 0⟩).length = 1 := by
    rw [topProducts_length, groupProducts_length]
    decide
  have hne : (overviewImpl sW9t ⟨0, 0⟩).top_products ≠ [] := by
    show topProducts [oI3] ⟨0, 0⟩ ≠ []
    intro h
    rw [h] at hlen
    simp at hlen
  obtain ⟨p, hp⟩ := List.exists_mem_of_ne_nil _ hne
  exact ⟨p, hp, (c9_rounding sW9t ⟨0, 0⟩).2.2.2.1 p hp⟩

end StoreSaas
